import Mathlib

/-!
Verification of the SFLConversionBot core: the TTL price cache with stale
fallback (src/sfl_bot/decorators.py, src/sfl_bot/services.py), the decimal
calculation engine (src/sfl_bot/calculations.py), and the conversion guards
(src/sfl_bot/handlers.py).  Monetary values are Python `Decimal` numbers
computed under the process-global context `getcontext().prec = 12` set in
src/sfl_bot/config.py, so every arithmetic operation rounds its result to
12 significant digits with banker's rounding (`ROUND_HALF_EVEN`).
-/

set_option maxRecDepth 8000

namespace SFL

/-- An exact decimal number: the value is `c * 10 ^ e`, mirroring the
coefficient/exponent representation of Python `Decimal`.  Two `Dec` values
denote the same number when their aligned coefficients agree (`dEqv`). -/
structure Dec where
  c : Int
  e : Int
deriving DecidableEq

def decZero : Dec := ⟨0, 0⟩

def dOfNat (n : Nat) : Dec := ⟨(n : Int), 0⟩

def digitsAux : Nat → Nat → Nat
  | 0, _ => 0
  | fuel + 1, n => if n = 0 then 0 else digitsAux fuel (n / 10) + 1

/-- Number of base-10 digits of `n` (1 for `n = 0`), as used when the decimal
context checks a coefficient against its precision. -/
def digits (n : Nat) : Nat := if n = 0 then 1 else digitsAux 128 n

/-- The precision of the process-global decimal context: `getcontext().prec = 12`
(src/sfl_bot/config.py line 8). -/
def contextPrec : Nat := 12

/-- Drop `shift` trailing decimal digits of `a`, rounding `ROUND_HALF_EVEN`;
`sticky` records that additional discarded data below the dropped digits is
nonzero (used by division). -/
def rheNat (a : Nat) (shift : Nat) (sticky : Bool) : Nat :=
  if shift = 0 then a
  else
    let M := 10 ^ shift
    let q := a / M
    let r := a % M
    let half := M / 2
    if half < r then q + 1
    else if r < half then q
    else if sticky then q + 1
    else if q % 2 = 0 then q else q + 1

def rheInt (n : Int) (shift : Nat) : Int :=
  if n < 0 then -(rheNat n.natAbs shift false : Int) else (rheNat n.natAbs shift false : Int)

/-- Round a raw coefficient/exponent pair to `contextPrec` significant digits,
as the decimal context does to every arithmetic result. -/
def round12 (c : Int) (e : Int) : Dec :=
  let d := digits c.natAbs
  if d ≤ contextPrec then ⟨c, e⟩
  else
    let shift := d - contextPrec
    let c1 := rheInt c shift
    if digits c1.natAbs ≤ contextPrec then ⟨c1, (e + shift : Int)⟩
    else ⟨rheInt c1 1, (e + shift + 1 : Int)⟩

/-- Decimal addition: exact sum of the aligned coefficients, then context
rounding to 12 significant digits. -/
def dAdd (x y : Dec) : Dec :=
  let m := min x.e y.e
  round12 (x.c * 10 ^ (x.e - m).toNat + y.c * 10 ^ (y.e - m).toNat) m

def dNeg (x : Dec) : Dec := ⟨-x.c, x.e⟩

def dSub (x y : Dec) : Dec := dAdd x (dNeg y)

/-- Decimal multiplication: exact product, then context rounding. -/
def dMul (x y : Dec) : Dec := round12 (x.c * y.c) (x.e + y.e)

/-- The nonzero-operand case of decimal division: the quotient correctly
rounded to 12 significant digits (`ROUND_HALF_EVEN`). -/
def divPos (x y : Dec) : Dec :=
  let a := x.c.natAbs
  let b := y.c.natAbs
  let t := contextPrec + digits b
  let N := a * 10 ^ t
  let q := N / b
  let r := N % b
  let shift := digits q - contextPrec
  let qq := rheNat q shift (r != 0)
  let sgn : Int := if (x.c < 0) = (y.c < 0) then 1 else -1
  if digits qq ≤ contextPrec then
    ⟨sgn * qq, x.e - y.e - t + shift⟩
  else
    ⟨sgn * (qq / 10), x.e - y.e - t + shift + 1⟩

/-- Decimal division; `none` exactly when the divisor is zero, where Python
raises `DivisionByZero`. -/
def dDivOpt (x y : Dec) : Option Dec :=
  if y.c = 0 then none
  else if x.c = 0 then some ⟨0, x.e - y.e⟩
  else some (divPos x y)

def dDiv (x y : Dec) : Dec := (dDivOpt x y).getD decZero

def alignedPair (x y : Dec) : Int × Int :=
  let m := min x.e y.e
  (x.c * 10 ^ (x.e - m).toNat, y.c * 10 ^ (y.e - m).toNat)

/-- Value-level `<` on decimals (Python `Decimal.__lt__`). -/
def dLt (x y : Dec) : Bool := decide ((alignedPair x y).1 < (alignedPair x y).2)

/-- Value-level `≤` on decimals. -/
def dLe (x y : Dec) : Bool := decide ((alignedPair x y).1 ≤ (alignedPair x y).2)

/-- Value-level `==` on decimals (Python `Decimal.__eq__`). -/
def dEqv (x y : Dec) : Bool := decide ((alignedPair x y).1 = (alignedPair x y).2)

def digitChar : Nat → Char
  | 0 => '0'
  | 1 => '1'
  | 2 => '2'
  | 3 => '3'
  | 4 => '4'
  | 5 => '5'
  | 6 => '6'
  | 7 => '7'
  | 8 => '8'
  | _ => '9'

def natToChars : Nat → Nat → List Char
  | 0, _ => []
  | fuel + 1, n => if n = 0 then [] else natToChars fuel (n / 10) ++ [digitChar (n % 10)]

/-- Decimal digit string of a natural number. -/
def natChars (n : Nat) : List Char := if n = 0 then ['0'] else natToChars 128 n

/-- Fractional digit block: `a` rendered over exactly `n` digits with leading
zeros. -/
def fracChars (a n : Nat) : List Char :=
  let ds := natToChars 128 a
  List.replicate (n - ds.length) '0' ++ ds

/-- Magnitude of `v` rescaled to exponent `-n` (`ROUND_HALF_EVEN`), as Python's
fixed-point formatting does. -/
def quantAbs (v : Dec) (n : Nat) : Nat :=
  if 0 ≤ v.e + (n : Int) then v.c.natAbs * 10 ^ (v.e + (n : Int)).toNat
  else rheNat v.c.natAbs (-(v.e + (n : Int))).toNat false

/-- Python `f"{v:.nf}"` on a `Decimal`: fixed-point rendering with exactly `n`
fractional digits; a negative decimal keeps its sign even when the rescaled
magnitude is zero. -/
def fmtFixed (v : Dec) (n : Nat) : String :=
  let a := quantAbs v n
  String.mk ((if v.c < 0 then ['-'] else []) ++ natChars (a / 10 ^ n) ++
    (if n = 0 then [] else '.' :: fracChars (a % 10 ^ n) n))

/-- Python `str.rstrip` for a single character: remove every trailing
occurrence of `ch`. -/
def rstripAll (s : String) (ch : Char) : String :=
  String.mk ((s.data.reverse.dropWhile (fun c => decide (c = ch))).reverse)

/-- The trailing-zero cleanup of `format_decimal`
(src/sfl_bot/calculations.py lines 139-140):
`if '.' in formatted: formatted = formatted.rstrip('0').rstrip('.')`. -/
def stripZeros (s : String) : String :=
  if '.' ∈ s.data then rstripAll (rstripAll s '0') '.' else s

/-- `Calculations.format_decimal` (src/sfl_bot/calculations.py lines 129-141,
duplicated as `Handlers.format_decimal` in src/sfl_bot/handlers.py lines
43-55): 8 fractional digits when `value < Decimal('0.1')`, else 4, then strip
trailing zeros and a trailing dot. -/
def format_decimal (v : Dec) : String :=
  if dLt v ⟨1, -1⟩ then stripZeros (fmtFixed v 8) else stripZeros (fmtFixed v 4)

def charLower (ch : Char) : Char :=
  if 'A' ≤ ch ∧ ch ≤ 'Z' then Char.ofNat (ch.toNat + 32) else ch

/-- Python `str.lower()` restricted to the ASCII range used by item keys. -/
def strLower (s : String) : String := String.mk (s.data.map charLower)

/-- Python `str.replace(" ", "")`. -/
def removeSpaces (s : String) : String := String.mk (s.data.filter (fun c => decide (c ≠ ' ')))

/-- The key normalization used by the Lava Pit ingredient lookup
(src/sfl_bot/calculations.py line 105): `k.replace(" ", "").lower()`. -/
def normKey (s : String) : String := strLower (removeSpaces s)

/-- Item-price mapping in insertion order (a Python `dict` preserves it). -/
abbrev PriceTable := List (String × Dec)

/-- Python `dict.get(k, d)`: exact-key lookup with a default. -/
def dictGetD (tbl : PriceTable) (k : String) (d : Dec) : Dec :=
  match tbl.find? (fun kv => kv.1 == k) with
  | some kv => kv.2
  | none => d

/-- The parse step of `get_prices` (src/sfl_bot/services.py lines 34-37):
lower-case every key; values are already exact decimals via `Decimal(str(v))`. -/
def lowerKeys (data : List (String × Dec)) : PriceTable :=
  data.map (fun kv => (strLower kv.1, kv.2))

/-- The per-method attribute pair installed by `cache_ttl`
(src/sfl_bot/decorators.py): `_<name>_cache` and `_<name>_expiry`.  Either
attribute is absent (`none`) until the first successful producer run. -/
structure CacheState (α : Type) where
  cache : Option α
  expiry : Option Int
deriving DecidableEq

/-- Producer invocation inside the `cache_ttl` wrapper
(src/sfl_bot/decorators.py lines 14-17): on success store the result and
`now + ttl`, on failure propagate.  The final `Bool` records that the producer
was invoked. -/
def runProducer {α : Type} (ttl now : Int) (st : CacheState α)
    (producer : Except String α) : Except String α × CacheState α × Bool :=
  match producer with
  | .ok v => (.ok v, ⟨some v, some (now + ttl)⟩, true)
  | .error e => (.error e, st, true)

/-- The `cache_ttl` wrapper (src/sfl_bot/decorators.py lines 7-17): if the
expiry attribute exists and `now < expiry`, return the cached attribute without
invoking the producer; otherwise invoke it via `runProducer`. -/
def cache_ttl {α : Type} (ttl now : Int) (st : CacheState α)
    (producer : Except String α) : Except String α × CacheState α × Bool :=
  match st.expiry with
  | some exp =>
    if now < exp then
      match st.cache with
      | some v => (.ok v, st, false)
      | none => (.error "AttributeError", st, false)
    else runProducer ttl now st producer
  | none => runProducer ttl now st producer

/-- The body of `PriceBot.get_prices` (src/sfl_bot/services.py lines 31-41):
`fetch` is the outcome of `fetch_data` plus JSON extraction after the retries
are exhausted; on failure return `_get_prices_cache` when the attribute exists,
else re-raise the wrapped error. -/
def get_prices_body (st : CacheState PriceTable)
    (fetch : Except String (List (String × Dec))) : Except String PriceTable :=
  match fetch with
  | .ok data => .ok (lowerKeys data)
  | .error e =>
    match st.cache with
    | some c => .ok c
    | none => .error ("Error getting prices: " ++ e)

/-- `PriceBot.get_prices` as called by clients: the `cache_ttl(CACHE_TTL)`
wrapper applied to the fallback-aware body. -/
def get_prices (ttl now : Int) (st : CacheState PriceTable)
    (fetch : Except String (List (String × Dec))) :
    Except String PriceTable × CacheState PriceTable × Bool :=
  cache_ttl ttl now st (get_prices_body st fetch)

/-- The result dictionary of `Calculations.calculate_oil_cost`
(src/sfl_bot/calculations.py lines 43-54), restricted to the decimal fields. -/
structure OilResult where
  resource_name : String
  total_resource : Dec
  total_wood_cost : Dec
  total_iron_cost : Dec
  total_resource_cost : Dec
  total_cost : Dec
  unit_price : Dec
  price_10 : Dec
  price_50 : Dec
deriving DecidableEq

/-- `Calculations.calculate_oil_cost` (src/sfl_bot/calculations.py lines 9-54)
applied to an already-fetched price table: resource prices default to
`Decimal('0')` when absent, any zero price raises, otherwise the drill recipe
costs are computed with context-rounded decimal arithmetic. -/
def calculate_oil_cost (prices : PriceTable) (resource_type : String) :
    Except String OilResult :=
  let wood_price := dictGetD prices "wood" decZero
  let iron_price := dictGetD prices "iron" decZero
  let resource_price :=
    if resource_type == "leather" then dictGetD prices "leather" decZero
    else dictGetD prices "wool" decZero
  let resource_name := if resource_type == "leather" then "Leather" else "Wool"
  let total_resource := if resource_type == "leather" then dOfNat 30 else dOfNat 60
  if dEqv wood_price decZero || dEqv iron_price decZero || dEqv resource_price decZero then
    .error "Could not fetch all required resource prices"
  else
    let total_wood_cost := dMul (dOfNat 60) wood_price
    let total_iron_cost := dMul (dOfNat 27) iron_price
    let total_resource_cost := dMul total_resource resource_price
    let total_cost := dAdd (dAdd total_wood_cost total_iron_cost) total_resource_cost
    let unit_price := dDiv total_cost (dOfNat 50)
    .ok ⟨resource_name, total_resource, total_wood_cost, total_iron_cost,
      total_resource_cost, total_cost, unit_price,
      dMul unit_price (dOfNat 10), dMul unit_price (dOfNat 50)⟩

def oilTotal (prices : PriceTable) (rt : String) : Dec :=
  match calculate_oil_cost prices rt with
  | .ok r => r.total_cost
  | .error _ => decZero

def oilUnit (prices : PriceTable) (rt : String) : Dec :=
  match calculate_oil_cost prices rt with
  | .ok r => r.unit_price
  | .error _ => decZero

def oilP10 (prices : PriceTable) (rt : String) : Dec :=
  match calculate_oil_cost prices rt with
  | .ok r => r.price_10
  | .error _ => decZero

def oilP50 (prices : PriceTable) (rt : String) : Dec :=
  match calculate_oil_cost prices rt with
  | .ok r => r.price_50
  | .error _ => decZero

/-- One line of a seasonal breakdown in `calculate_lavapit_costs`: the oil line
priced from the production cost (`derived`), a market-priced line keyed by the
matched table key, or a flagged "Not found" line. -/
inductive LineItem where
  | derived (name : String) (qty : Nat) (cost : Dec)
  | market (key : String) (qty : Nat) (cost : Dec)
  | missing (name : String)
deriving DecidableEq

/-- The first table key whose normalization matches the ingredient
(src/sfl_bot/calculations.py lines 104-107). -/
def findNormKey (prices : PriceTable) (item : String) : Option String :=
  (prices.find? (fun kv => normKey kv.1 == normKey item)).map (fun kv => kv.1)

/-- The inner requirement loop of `calculate_lavapit_costs`
(src/sfl_bot/calculations.py lines 91-120): `acc` is the running
`season_total`; "not found" ingredients are flagged and skipped (`continue`),
the oil line costs `oil_unit_cost * quantity`, every other line costs
`quantity * market price`. -/
def processItems (prices : PriceTable) (oil_unit_cost : Dec) :
    List (String × Nat) → Dec → Dec × List LineItem
  | [], acc => (acc, [])
  | (item, qty) :: rest, acc =>
    if item == "oil" then
      let cost := dMul oil_unit_cost (dOfNat qty)
      let p := processItems prices oil_unit_cost rest (dAdd acc cost)
      (p.1, .derived item qty cost :: p.2)
    else
      match findNormKey prices item with
      | none =>
        let p := processItems prices oil_unit_cost rest acc
        (p.1, .missing item :: p.2)
      | some key =>
        let cost := dMul (dOfNat qty) (dictGetD prices key decZero)
        let p := processItems prices oil_unit_cost rest (dAdd acc cost)
        (p.1, .market key qty cost :: p.2)

/-- The Lava Pit seasonal requirements (src/sfl_bot/calculations.py
lines 61-86). -/
def seasons : List (String × List (String × Nat)) :=
  [("autumn", [("artichoke", 30), ("broccoli", 750), ("yam", 1000),
               ("gold", 5), ("crimstone", 4)]),
   ("winter", [("merino wool", 200), ("onion", 400), ("turnip", 200)]),
   ("spring", [("celestine", 2), ("lunara", 2), ("duskberry", 2),
               ("rhubarb", 2000), ("kale", 100)]),
   ("summer", [("oil", 100), ("pepper", 750), ("zucchini", 1000)])]

/-- `Calculations.calculate_lavapit_costs` (src/sfl_bot/calculations.py lines
56-127) applied to an already-fetched price table: one `(total, breakdown)`
pair per season. -/
def calculate_lavapit_costs (prices : PriceTable) (oil_unit_cost : Dec) :
    List (String × Dec × List LineItem) :=
  seasons.map (fun sr => (sr.1, processItems prices oil_unit_cost sr.2 decZero))

/-- The cost carried by a line, `none` for a flagged "Not found" line. -/
def lineCost : LineItem → Option Dec
  | .derived _ _ cost => some cost
  | .market _ _ cost => some cost
  | .missing _ => none

/-- Decimal sum of the costs of the present (non-missing) lines. -/
def presentSum (items : List LineItem) : Dec :=
  (items.filterMap lineCost).foldl dAdd decZero

/-- `MARKET_FEE = Decimal("0.10")` (src/sfl_bot/config.py line 16). -/
def MARKET_FEE : Dec := ⟨10, -2⟩

/-- `PriceBot.validate_amount` (src/sfl_bot/services.py lines 56-57):
`amount >= Decimal('0.00000001')`. -/
def validate_amount (amount : Dec) : Bool := dLe ⟨1, -8⟩ amount

/-- Currency -> sub-currency -> rate mapping of `get_exchange_rates`. -/
abbrev RateTable := List (String × List (String × Dec))

/-- `rates.get("sfl", {}).get("usd", Decimal('0'))`
(src/sfl_bot/handlers.py line 509). -/
def ratesGet (rates : RateTable) : Dec :=
  match rates.find? (fun kv => kv.1 == "sfl") with
  | some kv => dictGetD kv.2 "usd" decZero
  | none => decZero

/-- Observable outcome of the data path of `Handlers.handle_flower_conversion`
(src/sfl_bot/handlers.py lines 499-521): the guard messages, a potential
division-by-zero, or the converted value with the rate used. -/
inductive FlowerOutcome where
  | amountTooSmall
  | invalidRate
  | divisionError
  | ok (flower_value : Dec) (rate : Dec)
deriving DecidableEq

/-- `Handlers.handle_flower_conversion` (src/sfl_bot/handlers.py lines
499-521): reject amounts below the minimum, reject `flower_rate <= 0` as
invalid data, and only then compute `amount / flower_rate`. -/
def handle_flower_conversion (rates : RateTable) (amount : Dec) : FlowerOutcome :=
  if !validate_amount amount then .amountTooSmall
  else
    let flower_rate := ratesGet rates
    if dLe flower_rate decZero then .invalidRate
    else
      match dDivOpt amount flower_rate with
      | some v => .ok v flower_rate
      | none => .divisionError

/-- The gross/fee/net fields of the item unit conversion. -/
structure ItemConversion where
  gross_base : Dec
  gross_quote : Dec
  fee : Dec
  net_quote : Dec
deriving DecidableEq

/-- Modelled from the spec: `Handlers.handle_item_conversion` is invoked at
src/sfl_bot/handlers.py line 706 but its definition is not present under
src/; the arithmetic follows spec section 4.4, "Unit conversion":
`grossBase = amount * unitPrice`, `grossQuote = grossBase * exchangeRate`,
`fee = grossQuote * marketFeeRate`, `netQuote = grossQuote - fee`. -/
def handle_item_conversion (amount unit_price exchange_rate fee_rate : Dec) :
    ItemConversion :=
  let gross_base := dMul amount unit_price
  let gross_quote := dMul gross_base exchange_rate
  let fee := dMul gross_quote fee_rate
  ⟨gross_base, gross_quote, fee, dSub gross_quote fee⟩

/-- C1: on a call to `get_prices` whose fetch or parse fails (the producer is
consulted because no fresh cache entry short-circuits it), a previously cached
table — even one whose TTL has expired — is returned instead of raising, and
with no prior successful fetch the call fails with the classified wrapped
"Error getting prices" error.  The well-formedness hypothesis states that the
cache and expiry attributes are installed together, as the wrapper does. -/
theorem C1_get_prices_failure_fallback (ttl now : Int) (st : CacheState PriceTable)
    (msg : String) (hwf : st.cache = none ↔ st.expiry = none) :
    (∀ c, st.cache = some c → (get_prices ttl now st (.error msg)).1 = .ok c) ∧
    (st.cache = none → (get_prices ttl now st (.error msg)).1 =
      .error ("Error getting prices: " ++ msg)) := by
  obtain ⟨cache, expiry⟩ := st
  constructor
  · rintro c rfl
    cases expiry with
    | none => simp [get_prices, cache_ttl, runProducer, get_prices_body]
    | some exp =>
      by_cases h : now < exp <;>
        simp [get_prices, cache_ttl, runProducer, get_prices_body, h]
  · rintro rfl
    have h : expiry = none := by simpa using hwf.mp rfl
    subst h
    simp [get_prices, cache_ttl, runProducer, get_prices_body]

theorem C1_witness :
    (get_prices 300 20 ⟨some [("wood", ⟨2, 0⟩)], some 10⟩ (.error "boom")).1 =
      .ok [("wood", ⟨2, 0⟩)] :=
  (C1_get_prices_failure_fallback 300 20 ⟨some [("wood", ⟨2, 0⟩)], some 10⟩ "boom"
    (by simp)).1 [("wood", ⟨2, 0⟩)] rfl

/-- C2: while a stored value exists and `now` is strictly before its stored
expiry, the `cache_ttl` wrapper returns the stored value without invoking the
producer (same result for every producer, invocation flag `false`); in
particular two `get_prices` calls within the TTL return the identical table
with exactly one producer invocation. -/
theorem C2_ttl_cache_hit_no_refetch :
    (∀ (α : Type) (ttl now exp : Int) (st : CacheState α) (v : α)
       (producer : Except String α),
       st.expiry = some exp → now < exp → st.cache = some v →
       cache_ttl ttl now st producer = (.ok v, st, false)) ∧
    (∀ (ttl t0 t1 : Int) (data : List (String × Dec))
       (fetch2 : Except String (List (String × Dec))),
       t1 < t0 + ttl →
       get_prices ttl t0 ⟨none, none⟩ (.ok data) =
         (.ok (lowerKeys data), ⟨some (lowerKeys data), some (t0 + ttl)⟩, true) ∧
       get_prices ttl t1 ⟨some (lowerKeys data), some (t0 + ttl)⟩ fetch2 =
         (.ok (lowerKeys data), ⟨some (lowerKeys data), some (t0 + ttl)⟩, false)) := by
  constructor
  · rintro α ttl now exp ⟨cache, expiry⟩ v producer h1 h2 h3
    simp only at h1 h3
    subst h1; subst h3
    simp [cache_ttl, h2]
  · intro ttl t0 t1 data fetch2 h
    refine ⟨?_, ?_⟩
    · simp [get_prices, cache_ttl, runProducer, get_prices_body]
    · simp [get_prices, cache_ttl, runProducer, get_prices_body, h]

theorem C2_witness :
    get_prices 300 0 ⟨none, none⟩ (.ok [("Wood", ⟨2, 0⟩)]) =
      (.ok (lowerKeys [("Wood", ⟨2, 0⟩)]),
        ⟨some (lowerKeys [("Wood", ⟨2, 0⟩)]), some (0 + 300)⟩, true) ∧
    get_prices 300 100 ⟨some (lowerKeys [("Wood", ⟨2, 0⟩)]), some (0 + 300)⟩
        (.error "down") =
      (.ok (lowerKeys [("Wood", ⟨2, 0⟩)]),
        ⟨some (lowerKeys [("Wood", ⟨2, 0⟩)]), some (0 + 300)⟩, false) :=
  C2_ttl_cache_hit_no_refetch.2 300 0 100 [("Wood", ⟨2, 0⟩)] (.error "down")
    (by decide)

/-- C9: when the fetch fails on a consulted (expired or absent) entry while a
cached table exists, the stale table is returned as a producer success, so the
wrapper overwrites the entry with expiry `now + ttl`; every call strictly
before `now + ttl` then returns the stale table without the producer being
invoked, whatever its fetch would do. -/
theorem C9_stale_fallback_renews_ttl (ttl now : Int) (st : CacheState PriceTable)
    (c : PriceTable) (msg : String) (hc : st.cache = some c)
    (hmiss : ∀ exp, st.expiry = some exp → ¬ now < exp) :
    get_prices ttl now st (.error msg) =
      (.ok c, ⟨some c, some (now + ttl)⟩, true) ∧
    (∀ (now2 : Int) (fetch2 : Except String (List (String × Dec))),
      now2 < now + ttl →
      get_prices ttl now2 ⟨some c, some (now + ttl)⟩ fetch2 =
        (.ok c, ⟨some c, some (now + ttl)⟩, false)) := by
  obtain ⟨cache, expiry⟩ := st
  simp only at hc
  subst hc
  constructor
  · cases expiry with
    | none => simp [get_prices, cache_ttl, runProducer, get_prices_body]
    | some exp =>
      have h := hmiss exp rfl
      simp [get_prices, cache_ttl, runProducer, get_prices_body, h]
  · intro now2 fetch2 h2
    simp [get_prices, cache_ttl, runProducer, get_prices_body, h2]

theorem C9_witness :
    get_prices 300 50 ⟨some [("wood", ⟨2, 0⟩)], some 50⟩ (.error "down") =
      (.ok [("wood", ⟨2, 0⟩)], ⟨some [("wood", ⟨2, 0⟩)], some (50 + 300)⟩, true) :=
  (C9_stale_fallback_renews_ttl 300 50 ⟨some [("wood", ⟨2, 0⟩)], some 50⟩
    [("wood", ⟨2, 0⟩)] "down" rfl (by intro exp h; simp at h; omega)).1

/-- C7: `calculate_oil_cost` fails with the `MissingPriceData` error exactly
when the wood price, the iron price, or the chosen resource's price (leather on
the leather path, wool otherwise) is zero — a missing key defaults to
`Decimal('0')` and is likewise rejected — and on success all three prices used
in the total are nonzero. -/
theorem C7_oil_zero_price_guard (prices : PriceTable) (rt : String) :
    (calculate_oil_cost prices rt =
        .error "Could not fetch all required resource prices" ↔
      (dEqv (dictGetD prices "wood" decZero) decZero = true ∨
       dEqv (dictGetD prices "iron" decZero) decZero = true ∨
       dEqv (dictGetD prices (if rt == "leather" then "leather" else "wool") decZero)
         decZero = true)) ∧
    (∀ r, calculate_oil_cost prices rt = .ok r →
      dEqv (dictGetD prices "wood" decZero) decZero = false ∧
      dEqv (dictGetD prices "iron" decZero) decZero = false ∧
      dEqv (dictGetD prices (if rt == "leather" then "leather" else "wool") decZero)
        decZero = false) := by
  cases hrt : rt == "leather" <;>
  · simp only [calculate_oil_cost, hrt, if_true, if_false, Bool.false_eq_true,
      Bool.true_eq_false]
    by_cases hw : dEqv (dictGetD prices "wood" decZero) decZero = true <;>
      by_cases hi : dEqv (dictGetD prices "iron" decZero) decZero = true <;>
      by_cases hrp : dEqv (dictGetD prices "leather" decZero) decZero = true <;>
      by_cases hwl : dEqv (dictGetD prices "wool" decZero) decZero = true <;>
      simp_all

theorem C7_witness :
    calculate_oil_cost [("iron", ⟨5, 0⟩), ("leather", ⟨1, 0⟩)] "leather" =
      .error "Could not fetch all required resource prices" :=
  (C7_oil_zero_price_guard [("iron", ⟨5, 0⟩), ("leather", ⟨1, 0⟩)] "leather").1.mpr
    (Or.inl (by decide))

/-- C8: the flower conversion handler rejects a non-positive (or missing,
hence zero-defaulted) exchange rate as invalid data before dividing, so its
division is only executed with a strictly positive divisor and a
division-by-zero outcome is impossible. -/
theorem C8_flower_no_division_by_zero (rates : RateTable) (amount : Dec) :
    handle_flower_conversion rates amount ≠ .divisionError ∧
    (∀ v r, handle_flower_conversion rates amount = .ok v r →
      dLt decZero r = true) := by
  have key : ∀ fr : Dec, dLe fr decZero = false → fr.c ≠ 0 ∧ dLt decZero fr = true := by
    intro fr h
    simp only [dLe, alignedPair, decZero, decide_eq_false_iff_not, not_le,
      zero_mul] at h
    have hpos : (0 : Int) < fr.c := by
      rcases mul_pos_iff.mp h with ⟨h1, _⟩ | ⟨_, h2⟩
      · exact h1
      · exact absurd h2 (lt_asymm (by positivity))
    refine ⟨ne_of_gt hpos, ?_⟩
    simp only [dLt, alignedPair, decZero, decide_eq_true_eq, zero_mul]
    exact mul_pos hpos (by positivity)
  unfold handle_flower_conversion
  by_cases hv : validate_amount amount
  · simp only [hv, Bool.not_true, Bool.false_eq_true, if_false]
    by_cases hr : dLe (ratesGet rates) decZero
    · simp [hr]
    · obtain ⟨hc, hlt⟩ := key _ (by simpa using hr)
      have hw : dDivOpt amount (ratesGet rates) = some ((dDivOpt amount (ratesGet rates)).getD decZero) := by
        unfold dDivOpt
        rw [if_neg hc]
        by_cases hx : amount.c = 0 <;> simp [hx]
      rw [if_neg hr, hw]
      constructor
      · simp
      · intro v r hvr
        cases hvr
        exact hlt
  · simp [hv]

theorem C8_witness : dLt decZero ⟨5, -1⟩ = true :=
  (C8_flower_no_division_by_zero [("sfl", [("usd", ⟨5, -1⟩)])] ⟨1, 0⟩).2
    ⟨200000000000, -11⟩ ⟨5, -1⟩ (by decide)

/-- C6: the item unit conversion computes `grossBase = amount * unitPrice`,
`grossQuote = grossBase * exchangeRate`, `fee = grossQuote * feeRate` and
`netQuote = grossQuote - fee` in context decimal arithmetic; with the default
fee rate `MARKET_FEE = 0.10`, amount 100, unit price 2 and exchange rate 0.5
this yields gross base 200, gross quote 100, fee 10 and net 90. -/
theorem C6_item_unit_conversion :
    (∀ amount unit_price exchange_rate fee_rate : Dec,
      (handle_item_conversion amount unit_price exchange_rate fee_rate).gross_base =
        dMul amount unit_price ∧
      (handle_item_conversion amount unit_price exchange_rate fee_rate).gross_quote =
        dMul (dMul amount unit_price) exchange_rate ∧
      (handle_item_conversion amount unit_price exchange_rate fee_rate).fee =
        dMul (dMul (dMul amount unit_price) exchange_rate) fee_rate ∧
      (handle_item_conversion amount unit_price exchange_rate fee_rate).net_quote =
        dSub (dMul (dMul amount unit_price) exchange_rate)
          (dMul (dMul (dMul amount unit_price) exchange_rate) fee_rate)) ∧
    (dEqv (handle_item_conversion ⟨100, 0⟩ ⟨2, 0⟩ ⟨5, -1⟩ MARKET_FEE).gross_base
        ⟨200, 0⟩ = true ∧
     dEqv (handle_item_conversion ⟨100, 0⟩ ⟨2, 0⟩ ⟨5, -1⟩ MARKET_FEE).gross_quote
        ⟨100, 0⟩ = true ∧
     dEqv (handle_item_conversion ⟨100, 0⟩ ⟨2, 0⟩ ⟨5, -1⟩ MARKET_FEE).fee
        ⟨10, 0⟩ = true ∧
     dEqv (handle_item_conversion ⟨100, 0⟩ ⟨2, 0⟩ ⟨5, -1⟩ MARKET_FEE).net_quote
        ⟨90, 0⟩ = true) :=
  ⟨fun _ _ _ _ => ⟨rfl, rfl, rfl, rfl⟩, by decide⟩

/-- C3 counterexample: with wood = 2, iron = 5 and leather = 29629629629.6 the
returned total cost is exactly `60*2 + 27*5 + 30*29629629629.6 = 888888889143`
(coefficients scaled by 10), yet the returned unit cost differs from
`totalCost / 50 = 17777777782.86` because the division result is rounded to 12
significant digits; so the claimed exact equation `unitCost = totalCost / 50`
fails on this table. -/
theorem C3_counterexample :
    (calculate_oil_cost
        [("wood", ⟨2, 0⟩), ("iron", ⟨5, 0⟩), ("leather", ⟨296296296296, -1⟩)]
        "leather").toOption.isSome = true ∧
    dEqv (oilTotal
        [("wood", ⟨2, 0⟩), ("iron", ⟨5, 0⟩), ("leather", ⟨296296296296, -1⟩)]
        "leather")
      ⟨60 * 20 + 27 * 50 + 30 * 296296296296, -1⟩ = true ∧
    dEqv (oilUnit
        [("wood", ⟨2, 0⟩), ("iron", ⟨5, 0⟩), ("leather", ⟨296296296296, -1⟩)]
        "leather")
      ⟨(60 * 20 + 27 * 50 + 30 * 296296296296) * 2, -3⟩ = false := by
  decide

/-- C3 (amended): each arithmetic step of the oil production cost is rounded
to 12 significant digits, so the exact equations can fail on large-coefficient
prices; on the claim's example table (wood = 2, iron = 5, leather = 1,
wool = 1) they hold exactly: leather path total 285, unit cost 5.7, scaled
costs 57 and 285; wool path (60 units of resource) total 315, unit cost 6.3. -/
theorem C3_oil_recipe_example :
    dEqv (oilTotal
        [("wood", ⟨2, 0⟩), ("iron", ⟨5, 0⟩), ("leather", ⟨1, 0⟩), ("wool", ⟨1, 0⟩)]
        "leather") ⟨285, 0⟩ = true ∧
    dEqv (oilUnit
        [("wood", ⟨2, 0⟩), ("iron", ⟨5, 0⟩), ("leather", ⟨1, 0⟩), ("wool", ⟨1, 0⟩)]
        "leather") ⟨57, -1⟩ = true ∧
    dEqv (oilP10
        [("wood", ⟨2, 0⟩), ("iron", ⟨5, 0⟩), ("leather", ⟨1, 0⟩), ("wool", ⟨1, 0⟩)]
        "leather") ⟨57, 0⟩ = true ∧
    dEqv (oilP50
        [("wood", ⟨2, 0⟩), ("iron", ⟨5, 0⟩), ("leather", ⟨1, 0⟩), ("wool", ⟨1, 0⟩)]
        "leather") ⟨285, 0⟩ = true ∧
    dEqv (oilTotal
        [("wood", ⟨2, 0⟩), ("iron", ⟨5, 0⟩), ("leather", ⟨1, 0⟩), ("wool", ⟨1, 0⟩)]
        "wool") ⟨315, 0⟩ = true ∧
    dEqv (oilUnit
        [("wood", ⟨2, 0⟩), ("iron", ⟨5, 0⟩), ("leather", ⟨1, 0⟩), ("wool", ⟨1, 0⟩)]
        "wool") ⟨63, -1⟩ = true := by
  decide

/-- Correctness of one breakdown line: the derived (oil) line is priced from
the production unit cost, a market line from the looked-up table price, and a
flagged line really has no normalized match in the table. -/
def lineOK (prices : PriceTable) (oil_unit_cost : Dec) : LineItem → Prop
  | .derived name qty cost => name = "oil" ∧ cost = dMul oil_unit_cost (dOfNat qty)
  | .market key qty cost => cost = dMul (dOfNat qty) (dictGetD prices key decZero)
  | .missing name => findNormKey prices name = none

theorem processItems_total (prices : PriceTable) (oil : Dec) :
    ∀ (reqs : List (String × Nat)) (acc : Dec),
      (processItems prices oil reqs acc).1 =
        ((processItems prices oil reqs acc).2.filterMap lineCost).foldl dAdd acc := by
  intro reqs
  induction reqs with
  | nil => intro acc; simp [processItems]
  | cons hd tl ih =>
    intro acc
    obtain ⟨item, qty⟩ := hd
    by_cases hoil : (item == "oil") = true
    · simp only [processItems, hoil, if_true, List.filterMap_cons, lineCost,
        List.foldl_cons]
      exact ih _
    · cases hfind : findNormKey prices item with
      | none =>
        simp only [processItems, hoil, Bool.false_eq_true, if_false, hfind,
          List.filterMap_cons, lineCost]
        exact ih _
      | some key =>
        simp only [processItems, hoil, Bool.false_eq_true, if_false, hfind,
          List.filterMap_cons, lineCost, List.foldl_cons]
        exact ih _

theorem processItems_lineOK (prices : PriceTable) (oil : Dec) :
    ∀ (reqs : List (String × Nat)) (acc : Dec) (li : LineItem),
      li ∈ (processItems prices oil reqs acc).2 → lineOK prices oil li := by
  intro reqs
  induction reqs with
  | nil => intro acc li h; simp [processItems] at h
  | cons hd tl ih =>
    intro acc li h
    obtain ⟨item, qty⟩ := hd
    by_cases hoil : (item == "oil") = true
    · simp only [processItems, hoil, if_true, List.mem_cons] at h
      rcases h with rfl | h
      · exact ⟨by simpa using hoil, rfl⟩
      · exact ih _ li h
    · cases hfind : findNormKey prices item with
      | none =>
        simp only [processItems, hoil, Bool.false_eq_true, if_false, hfind,
          List.mem_cons] at h
        rcases h with rfl | h
        · exact hfind
        · exact ih _ li h
      | some key =>
        simp only [processItems, hoil, Bool.false_eq_true, if_false, hfind,
          List.mem_cons] at h
        rcases h with rfl | h
        · exact rfl
        · exact ih _ li h

/-- C4: every seasonal breakdown has its four seasons, each season's total is
the decimal sum of the line costs of exactly the present lines, a missing
ingredient yields a flagged line (genuinely absent from the table under
normalized lookup) that is excluded from the subtotal without failing the
season, and the oil line costs `oil_unit_cost * quantity` (the production unit
cost), not a market price. -/
theorem C4_lavapit_seasonal_invariant (prices : PriceTable) (oil_unit_cost : Dec) :
    (calculate_lavapit_costs prices oil_unit_cost).map Prod.fst =
      ["autumn", "winter", "spring", "summer"] ∧
    (∀ e ∈ calculate_lavapit_costs prices oil_unit_cost,
      e.2.1 = presentSum e.2.2 ∧ ∀ li ∈ e.2.2, lineOK prices oil_unit_cost li) := by
  constructor
  · simp [calculate_lavapit_costs, seasons]
  · intro e he
    simp only [calculate_lavapit_costs, List.mem_map] at he
    obtain ⟨sr, _, rfl⟩ := he
    exact ⟨processItems_total prices oil_unit_cost sr.2 decZero,
      fun li hli => processItems_lineOK prices oil_unit_cost sr.2 decZero li hli⟩

theorem C4_witness :
    (processItems [("pepper", ⟨1, 0⟩)] ⟨7, 0⟩
        [("oil", 100), ("pepper", 750), ("zucchini", 1000)] decZero).1 =
      presentSum (processItems [("pepper", ⟨1, 0⟩)] ⟨7, 0⟩
        [("oil", 100), ("pepper", 750), ("zucchini", 1000)] decZero).2 :=
  ((C4_lavapit_seasonal_invariant [("pepper", ⟨1, 0⟩)] ⟨7, 0⟩).2
    ("summer", processItems [("pepper", ⟨1, 0⟩)] ⟨7, 0⟩
      [("oil", 100), ("pepper", 750), ("zucchini", 1000)] decZero)
    (by decide)).1

/-- C10: every decimal operation of the calculation engine rounds its result
to the process-global context precision of 12 significant digits; on the table
wood = 2, iron = 5, leather = 33333333324.8 the total cost is the 12-digit
999999999999, the unit cost `totalCost / 50` rounds to 20000000000.0, and
consequently `unit_price * 50` differs from `total_cost`. -/
theorem C10_context_rounding_observable :
    contextPrec = 12 ∧
    (calculate_oil_cost
        [("wood", ⟨2, 0⟩), ("iron", ⟨5, 0⟩), ("leather", ⟨333333333248, -1⟩)]
        "leather").toOption.isSome = true ∧
    dEqv (oilTotal
        [("wood", ⟨2, 0⟩), ("iron", ⟨5, 0⟩), ("leather", ⟨333333333248, -1⟩)]
        "leather") ⟨999999999999, 0⟩ = true ∧
    dEqv (oilUnit
        [("wood", ⟨2, 0⟩), ("iron", ⟨5, 0⟩), ("leather", ⟨333333333248, -1⟩)]
        "leather") ⟨2, 10⟩ = true ∧
    dEqv (oilP50
        [("wood", ⟨2, 0⟩), ("iron", ⟨5, 0⟩), ("leather", ⟨333333333248, -1⟩)]
        "leather")
      (oilTotal
        [("wood", ⟨2, 0⟩), ("iron", ⟨5, 0⟩), ("leather", ⟨333333333248, -1⟩)]
        "leather") = false := by
  decide

theorem digitChar_ne_dot (k : Nat) : digitChar k ≠ '.' := by
  match k with
  | 0 => decide
  | 1 => decide
  | 2 => decide
  | 3 => decide
  | 4 => decide
  | 5 => decide
  | 6 => decide
  | 7 => decide
  | 8 => decide
  | n + 9 => exact (by decide : ('9' : Char) ≠ '.')

theorem natToChars_no_dot : ∀ (fuel n : Nat), '.' ∉ natToChars fuel n := by
  intro fuel
  induction fuel with
  | zero => intro n; simp [natToChars]
  | succ f ih =>
    intro n
    by_cases hn : n = 0
    · simp [natToChars, hn]
    · simp only [natToChars, hn, if_false]
      intro h
      rcases List.mem_append.mp h with h | h
      · exact ih _ h
      · exact digitChar_ne_dot _ (List.mem_singleton.mp h).symm

theorem natChars_no_dot (n : Nat) : '.' ∉ natChars n := by
  by_cases hn : n = 0
  · simp [natChars, hn]
  · simp only [natChars, hn, if_false]
    exact natToChars_no_dot 128 n

theorem fracChars_no_dot (a n : Nat) : '.' ∉ fracChars a n := by
  simp only [fracChars]
  intro h
  rcases List.mem_append.mp h with h | h
  · exact absurd (List.mem_replicate.mp h).2 (by decide)
  · exact natToChars_no_dot 128 a h

theorem head_dropWhile_false (p : Char → Bool) :
    ∀ (l : List Char) (c : Char), (l.dropWhile p).head? = some c → p c = false := by
  intro l
  induction l with
  | nil => intro c h; simp [List.dropWhile] at h
  | cons a as ih =>
    intro c h
    by_cases hp : p a = true
    · rw [List.dropWhile_cons_of_pos hp] at h
      exact ih c h
    · rw [List.dropWhile_cons_of_neg hp] at h
      rw [List.head?_cons] at h
      cases h
      exact eq_false_of_ne_true hp

theorem stripZeros_no_trailing (s : String) (hcount : s.data.count '.' ≤ 1) :
    '.' ∈ (stripZeros s).data →
      (stripZeros s).data.getLast? ≠ some '0' ∧
      (stripZeros s).data.getLast? ≠ some '.' := by
  intro hmem
  by_cases hdot : '.' ∈ s.data
  case neg =>
    rw [stripZeros, if_neg hdot] at hmem
    exact absurd hmem hdot
  case pos =>
    rw [stripZeros, if_pos hdot] at hmem ⊢
    simp only [rstripAll, List.reverse_reverse] at hmem ⊢
    rw [List.getLast?_reverse]
    rw [List.mem_reverse] at hmem
    cases hl : s.data.reverse.dropWhile (fun c => decide (c = '0')) with
    | nil => rw [hl] at hmem; simp [List.dropWhile] at hmem
    | cons a as =>
      rw [hl] at hmem
      by_cases ha : a = '.'
      · subst ha
        rw [List.dropWhile_cons_of_pos (by simp)] at hmem
        have h1 : ('.' :: as).count '.' ≤ 1 := by
          rw [← hl]
          calc (s.data.reverse.dropWhile (fun c => decide (c = '0'))).count '.'
              ≤ s.data.reverse.count '.' := (List.dropWhile_sublist _).count_le '.'
            _ = s.data.count '.' := List.count_reverse '.' s.data
            _ ≤ 1 := hcount
        have h2 : as.count '.' = 0 := by
          rw [List.count_cons] at h1
          simp at h1
          omega
        have h3 : '.' ∉ as := List.count_eq_zero.mp h2
        exact absurd
          ((List.dropWhile_sublist (fun c => decide (c = '.'))).subset hmem) h3
      · rw [List.dropWhile_cons_of_neg (by simpa using ha)]
        have h0 : (fun c => decide (c = '0')) a = false := by
          apply head_dropWhile_false _ s.data.reverse a
          rw [hl, List.head?_cons]
        simp only [decide_eq_false_iff_not] at h0
        rw [List.head?_cons]
        constructor
        · intro hx; cases hx; exact h0 rfl
        · intro hx; cases hx; exact ha rfl

theorem fmtFixed_count_dot (v : Dec) (n : Nat) (hn : n ≠ 0) :
    (fmtFixed v n).data.count '.' ≤ 1 := by
  show ((if v.c < 0 then ['-'] else []) ++
      natChars (quantAbs v n / 10 ^ n) ++
      (if n = 0 then [] else '.' :: fracChars (quantAbs v n % 10 ^ n) n)).count '.' ≤ 1
  rw [if_neg hn, List.count_append, List.count_append]
  have h1 : ((if v.c < 0 then ['-'] else []) : List Char).count '.' = 0 := by
    by_cases h : v.c < 0 <;> simp [h]
  have h2 : (natChars (quantAbs v n / 10 ^ n)).count '.' = 0 :=
    List.count_eq_zero.mpr (natChars_no_dot _)
  have h3 : (fracChars (quantAbs v n % 10 ^ n) n).count '.' = 0 :=
    List.count_eq_zero.mpr (fracChars_no_dot _ _)
  rw [h1, h2, List.count_cons, h3]
  simp

/-- C5 counterexample: the code compares `value < Decimal('0.1')` without an
absolute value, so the negative value -1.00000005 (whose absolute value is at
least 0.1) is rendered with 8 fractional digits as "-1.00000005", while the
claimed 4-digit rendering would strip to "-1". -/
theorem C5_counterexample :
    dLt ⟨100000005, -8⟩ ⟨1, -1⟩ = false ∧
    format_decimal ⟨-100000005, -8⟩ = "-1.00000005" ∧
    stripZeros (fmtFixed ⟨-100000005, -8⟩ 4) = "-1" ∧
    ("-1.00000005" : String) ≠ "-1" := by
  exact ⟨by decide, by decide, by decide, by decide⟩

/-- C5 (amended): `format_decimal` renders with 8 fractional digits when the
(signed) value is less than 0.1 and with 4 fractional digits otherwise, then
strips trailing zeros and a trailing decimal point; the claim's examples hold
(`0.00005`, `0.1`, `1.234`, `0`), and no rendered value that still contains a
decimal point ends in a zero or in the point itself. -/
theorem C5_format_decimal_spec :
    format_decimal ⟨5, -5⟩ = "0.00005" ∧
    format_decimal ⟨1, -1⟩ = "0.1" ∧
    format_decimal ⟨123400000, -8⟩ = "1.234" ∧
    format_decimal ⟨0, -8⟩ = "0" ∧
    format_decimal ⟨-100000005, -8⟩ = "-1.00000005" ∧
    (∀ v : Dec, '.' ∈ (format_decimal v).data →
      (format_decimal v).data.getLast? ≠ some '0' ∧
      (format_decimal v).data.getLast? ≠ some '.') := by
  refine ⟨by decide, by decide, by decide, by decide, by decide, ?_⟩
  intro v
  unfold format_decimal
  by_cases h : dLt v ⟨1, -1⟩ = true
  · rw [if_pos h]
    exact stripZeros_no_trailing _ (fmtFixed_count_dot v 8 (by decide))
  · rw [if_neg h]
    exact stripZeros_no_trailing _ (fmtFixed_count_dot v 4 (by decide))

theorem C5_witness : (format_decimal ⟨5, -5⟩).data.getLast? ≠ some '0' :=
  (C5_format_decimal_spec.2.2.2.2.2 ⟨5, -5⟩ (by decide)).1

end SFL
